import Mathlib

/-!
# Verification of the suggestion-generation pipeline (`ai.js`, `makeSuggestions`)

Shallow embedding of the core of the repository: the `makeSuggestions`
function of `ai.js` (the Suggestion Resolver), which builds a prompt,
issues one call to the Gemini endpoint, extracts the model's text payload
from the response envelope, slices the brace-delimited JSON block out of
the text, parses it, and assembles a three-field result with per-field
and whole-call fallbacks.

JavaScript values flowing through the pipeline are modelled by `JsonValue`;
`undefined` is modelled by `Option.none` where it can occur.  The external
HTTP call is modelled by a `respond` oracle mapping the issued request to
its outcome; `makeSuggestions` additionally returns the list of requests it
issued, so that the single-call property is expressible.
-/

/-- A JSON value, as produced by `JSON.parse`.  Numbers are modelled
exactly as rationals; JavaScript parses them as IEEE doubles, so a number
too small for a double would differ (underflow to `0`), a corner that no
property below touches. -/
inductive JsonValue where
  | null
  | bool (b : Bool)
  | num (q : Rat)
  | str (s : String)
  | arr (elems : List JsonValue)
  | obj (members : List (String × JsonValue))

/-- JavaScript truthiness of a JSON value (`null`, `false`, `0` and `""`
are falsy; every object and array is truthy).  This is what `x || fb`
tests. -/
def jsTruthy : JsonValue → Bool
  | .null => false
  | .bool b => b
  | .num q => if q = 0 then false else true
  | .str s => if s = "" then false else true
  | .arr _ => true
  | .obj _ => true

/-- Last binding of `key` in an object's member list: `JSON.parse` lets a
later duplicate key overwrite an earlier one, so property lookup returns
the last binding. -/
def lookupLast : List (String × JsonValue) → String → Option JsonValue
  | [], _ => none
  | (k, v) :: rest, key =>
    match lookupLast rest key with
    | some w => some w
    | none => if k = key then some v else none

/-- JavaScript property access `v[key]`, returning `none` for `undefined`:
objects look the key up, any other value (a primitive or an array) has no
such own property.  (Access on `null`/`undefined` would throw; callers
below either guard with optional chaining, which yields `undefined` and is
also `none` here, or handle the `null` case separately.) -/
def jsMember (v : JsonValue) (key : String) : Option JsonValue :=
  match v with
  | .obj kvs => lookupLast kvs key
  | _ => none

/-- JavaScript index access `v[i]`, returning `none` for `undefined`.
(Indexing a string in JavaScript yields a one-character string; here it
yields `none`, which is indistinguishable through the property access that
always follows it in the code below.) -/
def jsIndex (v : JsonValue) (i : Nat) : Option JsonValue :=
  match v with
  | .arr xs => xs.get? i
  | _ => none

/-! ## A model of `JSON.parse` -/

/-- JSON insignificant whitespace. -/
def isJsonWs (c : Char) : Bool :=
  c = ' ' || c = '\t' || c = '\n' || c = '\r'

/-- Drop leading JSON whitespace. -/
def skipWs (cs : List Char) : List Char :=
  cs.dropWhile isJsonWs

/-- Numeric value of a hex digit, if any. -/
def hexVal (c : Char) : Option Nat :=
  if '0' ≤ c ∧ c ≤ '9' then some (c.toNat - 48)
  else if 'a' ≤ c ∧ c ≤ 'f' then some (c.toNat - 87)
  else if 'A' ≤ c ∧ c ≤ 'F' then some (c.toNat - 55)
  else none

/-- Body of a JSON string literal, after the opening quote: scan up to the
closing quote, decoding escapes.  Raw control characters and invalid
escapes are syntax errors, as in `JSON.parse`.  A `\uXXXX` surrogate pair
is combined into one scalar; a lone surrogate (which JavaScript would keep
as an unpaired UTF-16 unit) becomes U+FFFD, a divergence no property below
can observe. -/
def parseStringBody : Nat → List Char → List Char → Option (String × List Char)
  | 0, _, _ => none
  | _ + 1, acc, '"' :: rest => some (⟨acc.reverse⟩, rest)
  | fuel + 1, acc, '\\' :: esc =>
    match esc with
    | '"' :: rest => parseStringBody fuel ('"' :: acc) rest
    | '\\' :: rest => parseStringBody fuel ('\\' :: acc) rest
    | '/' :: rest => parseStringBody fuel ('/' :: acc) rest
    | 'b' :: rest => parseStringBody fuel (Char.ofNat 8 :: acc) rest
    | 'f' :: rest => parseStringBody fuel (Char.ofNat 12 :: acc) rest
    | 'n' :: rest => parseStringBody fuel ('\n' :: acc) rest
    | 'r' :: rest => parseStringBody fuel ('\r' :: acc) rest
    | 't' :: rest => parseStringBody fuel ('\t' :: acc) rest
    | 'u' :: h1 :: h2 :: h3 :: h4 :: rest =>
      match hexVal h1, hexVal h2, hexVal h3, hexVal h4 with
      | some a, some b, some c, some d =>
        let n := ((a * 16 + b) * 16 + c) * 16 + d
        if 0xD800 ≤ n ∧ n ≤ 0xDBFF then
          match rest with
          | '\\' :: 'u' :: g1 :: g2 :: g3 :: g4 :: rest2 =>
            match hexVal g1, hexVal g2, hexVal g3, hexVal g4 with
            | some a2, some b2, some c2, some d2 =>
              let m := ((a2 * 16 + b2) * 16 + c2) * 16 + d2
              if 0xDC00 ≤ m ∧ m ≤ 0xDFFF then
                parseStringBody fuel
                  (Char.ofNat (0x10000 + (n - 0xD800) * 0x400 + (m - 0xDC00)) :: acc) rest2
              else parseStringBody fuel (Char.ofNat 0xFFFD :: acc) rest
            | _, _, _, _ => parseStringBody fuel (Char.ofNat 0xFFFD :: acc) rest
          | _ => parseStringBody fuel (Char.ofNat 0xFFFD :: acc) rest
        else if 0xDC00 ≤ n ∧ n ≤ 0xDFFF then
          parseStringBody fuel (Char.ofNat 0xFFFD :: acc) rest
        else parseStringBody fuel (Char.ofNat n :: acc) rest
      | _, _, _, _ => none
    | _ => none
  | fuel + 1, acc, c :: rest =>
    if c.toNat < 32 then none else parseStringBody fuel (c :: acc) rest
  | _, _, [] => none

/-- Decimal value of a digit list. -/
def digitsToNat (ds : List Char) : Nat :=
  ds.foldl (fun a c => a * 10 + (c.toNat - 48)) 0

/-- Fractional part of a JSON number: either absent, or a dot followed by
at least one digit. -/
def parseFrac : List Char → Option (List Char × List Char)
  | '.' :: r =>
    let fd := r.takeWhile Char.isDigit
    if fd.isEmpty then none else some (fd, r.dropWhile Char.isDigit)
  | cs => some ([], cs)

/-- Exponent part of a JSON number: either absent, or `e`/`E`, an optional
sign, and at least one digit.  Returns (negative?, digits, rest). -/
def parseExpPart : List Char → Option (Bool × List Char × List Char)
  | 'e' :: r => parseExpTail r
  | 'E' :: r => parseExpTail r
  | cs => some (false, [], cs)
where
  parseExpTail (r : List Char) : Option (Bool × List Char × List Char) :=
    let (sgn, r2) :=
      match r with
      | '+' :: t => (false, t)
      | '-' :: t => (true, t)
      | _ => (false, r)
    let ed := r2.takeWhile Char.isDigit
    if ed.isEmpty then none else some (sgn, ed, r2.dropWhile Char.isDigit)

/-- Exact rational value of a parsed JSON number. -/
def jsonNumberVal (neg : Bool) (intDs fracDs : List Char) (expNeg : Bool)
    (expDs : List Char) : Rat :=
  let m : Nat := digitsToNat intDs * 10 ^ fracDs.length + digitsToNat fracDs
  let sm : Int := if neg then -(m : Int) else (m : Int)
  let e := digitsToNat expDs
  if expNeg then mkRat sm (10 ^ fracDs.length * 10 ^ e)
  else mkRat (sm * (10 : Int) ^ e) (10 ^ fracDs.length)

/-- A JSON number token: optional minus, integer part without leading
zeros, optional fraction, optional exponent. -/
def parseNumber (cs : List Char) : Option (Rat × List Char) :=
  let (neg, cs1) :=
    match cs with
    | '-' :: r => (true, r)
    | _ => (false, cs)
  let intDs := cs1.takeWhile Char.isDigit
  let cs2 := cs1.dropWhile Char.isDigit
  if intDs.isEmpty then none
  else if 1 < intDs.length ∧ intDs.head? = some '0' then none
  else
    match parseFrac cs2 with
    | none => none
    | some (fracDs, cs3) =>
      match parseExpPart cs3 with
      | none => none
      | some (expNeg, expDs, cs4) =>
        some (jsonNumberVal neg intDs fracDs expNeg expDs, cs4)

mutual

/-- One JSON value, fuelled recursive-descent (the fuel only bounds
nesting and never runs out for the initial fuel chosen in `parseJson`,
since every unit of fuel spent is matched by at least one consumed
character). -/
def parseValue : Nat → List Char → Option (JsonValue × List Char)
  | 0, _ => none
  | fuel + 1, cs =>
    match skipWs cs with
    | [] => none
    | c :: rest =>
      if c = '\x7b' then
        match skipWs rest with
        | '\x7d' :: rest2 => some (.obj [], rest2)
        | rest2 =>
          match parseMembers fuel rest2 with
          | some (ms, rest3) => some (.obj ms, rest3)
          | none => none
      else if c = '[' then
        match skipWs rest with
        | ']' :: rest2 => some (.arr [], rest2)
        | rest2 =>
          match parseElems fuel rest2 with
          | some (vs, rest3) => some (.arr vs, rest3)
          | none => none
      else if c = '"' then
        match parseStringBody (rest.length + 1) [] rest with
        | some (s, rest2) => some (.str s, rest2)
        | none => none
      else if c = 'n' then
        match rest with
        | 'u' :: 'l' :: 'l' :: r => some (.null, r)
        | _ => none
      else if c = 't' then
        match rest with
        | 'r' :: 'u' :: 'e' :: r => some (.bool true, r)
        | _ => none
      else if c = 'f' then
        match rest with
        | 'a' :: 'l' :: 's' :: 'e' :: r => some (.bool false, r)
        | _ => none
      else
        match parseNumber (c :: rest) with
        | some (q, rest2) => some (.num q, rest2)
        | none => none

/-- Members of a JSON object, from just after `{` (first member must
exist), consuming the closing `}`. -/
def parseMembers : Nat → List Char → Option (List (String × JsonValue) × List Char)
  | 0, _ => none
  | fuel + 1, cs =>
    match skipWs cs with
    | '"' :: rest =>
      match parseStringBody (rest.length + 1) [] rest with
      | none => none
      | some (key, rest2) =>
        match skipWs rest2 with
        | ':' :: rest3 =>
          match parseValue fuel rest3 with
          | none => none
          | some (v, rest4) =>
            match skipWs rest4 with
            | ',' :: rest5 =>
              match parseMembers fuel rest5 with
              | some (ms, rest6) => some ((key, v) :: ms, rest6)
              | none => none
            | '\x7d' :: rest5 => some ([(key, v)], rest5)
            | _ => none
        | _ => none
    | _ => none

/-- Elements of a JSON array, from just after `[` (first element must
exist), consuming the closing `]`. -/
def parseElems : Nat → List Char → Option (List JsonValue × List Char)
  | 0, _ => none
  | fuel + 1, cs =>
    match parseValue fuel cs with
    | none => none
    | some (v, rest) =>
      match skipWs rest with
      | ',' :: rest2 =>
        match parseElems fuel rest2 with
        | some (vs, rest3) => some (v :: vs, rest3)
        | none => none
      | ']' :: rest2 => some (v :: [], rest2)
      | _ => none

end

/-- `JSON.parse`: one JSON value surrounded by nothing but whitespace;
`none` models the thrown `SyntaxError`. -/
def parseJson (s : String) : Option JsonValue :=
  let cs := s.data
  match parseValue (cs.length + 1) cs with
  | some (v, rest) => if skipWs rest = [] then some v else none
  | none => none

/-! ## Brace-block extraction — `text.match(/\{[\s\S]*\}/)` -/

/-- The substring matched by the regex `/\x7b[\s\S]*\x7d/` on `cs`, if
any: the greedy match runs from the first opening brace to the last
closing brace of the whole text (`[\s\S]*` matches anything, greedily, so
the leftmost match starts at the first brace and backtracks only to the
final closing brace). -/
def braceSlice (cs : List Char) : Option (List Char) :=
  match cs.dropWhile (fun c => c ≠ '\x7b') with
  | [] => none
  | brace :: rest =>
    let body := (rest.reverse.dropWhile (fun c => c ≠ '\x7d')).reverse
    if body.isEmpty then none else some (brace :: body)

/-- `text.match(/\x7b[\s\S]*\x7d/)`, returning the matched substring
(`match[0]`), or `none` when the regex does not match. -/
def extractJson (text : String) : Option String :=
  match braceSlice text.data with
  | some cs => some ⟨cs⟩
  | none => none

/-! ## The prompt (lines 6–23 of `ai.js`) -/

/-- The part of the prompt template literal before `$\x7buserMessage\x7d`. -/
def promptHead : String :=
  "\nあなたはLINEの返信文を提案するAIアシスタントです。\n次の入力メッセージに対して、以下3スタイルの返信をJSON形式で出力してください。\n\n1) casual（カジュアル）: 親しみやすい日常会話スタイル\n2) polite（丁寧）: ビジネス〜フォーマルな返信\n3) brief（要点）: 簡潔でスピーディーな返信（50〜90文字程度）\n\n条件:\n- どれも自然な日本語で、60〜180字以内\n- 絵文字は1つまで（自然な文脈でのみ）\n- 個人情報・誹謗中傷・機密内容は避ける\n入力文：\n\"\"\""

/-- The part of the prompt template literal after `$\x7buserMessage\x7d`. -/
def promptTail : String :=
  "\"\"\"\n\n出力は必ず以下のJSON形式で：\n\x7b\"casual\":\"...\", \"polite\":\"...\", \"brief\":\"...\"\x7d\n    "

/-- The `prompt` template literal: the fixed instruction text with the
user message interpolated verbatim between the two `\"\"\"` delimiters. -/
def prompt (userMessage : String) : String :=
  promptHead ++ userMessage ++ promptTail

/-! ## The request and the external call -/

/-- One element of a `parts` array of the request body. -/
structure RequestPart where
  text : String
deriving DecidableEq

/-- One element of the `contents` array of the request body. -/
structure RequestContent where
  role : String
  parts : List RequestPart
deriving DecidableEq

/-- The `generationConfig` object of the request body. -/
structure GenerationConfig where
  temperature : Rat
deriving DecidableEq

/-- The request issued by `axios.post`: URL and JSON body.  (The API key
query parameter comes from the process environment and is outside this
core.) -/
structure GeminiRequest where
  url : String
  contents : List RequestContent
  generationConfig : GenerationConfig
deriving DecidableEq

/-- The single request `makeSuggestions` posts for a given user message
(lines 26–33 of `ai.js`). -/
def geminiRequest (userMessage : String) : GeminiRequest :=
  { url := "https://generativelanguage.googleapis.com/v1beta/models/gemini-2.5-flash:generateContent"
    contents := [{ role := "user", parts := [{ text := prompt userMessage }] }]
    generationConfig := { temperature := 7 / 10 } }

/-- Outcome of the awaited `axios.post`: either the promise rejects (a
network error or a non-2xx status, both thrown by axios), or it resolves
and `res.data` is some JSON value. -/
inductive CallOutcome where
  | failure
  | success (data : JsonValue)

/-! ## Payload extraction — line 36 of `ai.js` -/

/-- The optional chain
`res.data?.candidates?.[0]?.content?.parts?.[0]?.text`: each `?.` step
maps `undefined`/`null` to `undefined` and otherwise reads the property,
which is `undefined` when absent or when the receiver is not an object
(resp. not an array, for the index steps). -/
def rawTextOf (data : JsonValue) : Option JsonValue :=
  ((((((some data).bind (jsMember · "candidates")).bind
    (jsIndex · 0)).bind (jsMember · "content")).bind
    (jsMember · "parts")).bind (jsIndex · 0)).bind (jsMember · "text")

/-- `const text = res.data?...?.text ?? ""` followed by the use of
`text.match`: `?? ""` turns `undefined` and `null` into `""`; if the
chain produced a non-string value, `text.match` throws a `TypeError`
(modelled by `none`), which the surrounding `try` absorbs. -/
def textPayload (data : JsonValue) : Option String :=
  match rawTextOf data with
  | none => some ""
  | some .null => some ""
  | some (.str s) => some s
  | some _ => none

/-! ## Fallback sentences and the result record -/

/-- Per-field fallback for `casual` (line 51 of `ai.js`). -/
def casualFallback : String :=
  "こんにちは！メッセージありがとうございます😊 どんなご用件でしょうか？お気軽に教えてくださいね！"

/-- Per-field fallback for `polite` (line 54 of `ai.js`). -/
def politeFallback : String :=
  "ご連絡ありがとうございます。どのようなご用件でしょうか？内容を確認の上、ご返信させていただきます。"

/-- Per-field fallback for `brief` (line 57 of `ai.js`). -/
def briefFallback : String :=
  "ご連絡ありがとうございます。詳細をお聞かせください。"

/-- The shared whole-call failure sentence (lines 62–64 of `ai.js`). -/
def failureFallback : String :=
  "（候補生成に失敗しました。もう一度お試しください）"

/-- The record returned to the caller.  The fields hold JavaScript
values: the code installs either the parsed field value or a fallback
string. -/
structure SuggestionResult where
  casual : JsonValue
  polite : JsonValue
  brief : JsonValue

/-- The result built in the `catch` block: all three fields are the
shared failure sentence. -/
def failureResult : SuggestionResult :=
  { casual := .str failureFallback
    polite := .str failureFallback
    brief := .str failureFallback }

/-- `parsed.key || fallbackSentence`: the parsed field when it is truthy,
the canned fallback string otherwise (`undefined`, i.e. a missing field,
is falsy). -/
def fieldOr (parsed : JsonValue) (key : String) (fb : String) : JsonValue :=
  match jsMember parsed key with
  | some v => if jsTruthy v then v else .str fb
  | none => .str fb

/-- The success-path return object of `makeSuggestions`
(lines 48–58 of `ai.js`). -/
def fieldsResult (parsed : JsonValue) : SuggestionResult :=
  { casual := fieldOr parsed "casual" casualFallback
    polite := fieldOr parsed "polite" politeFallback
    brief := fieldOr parsed "brief" briefFallback }

/-- Lines 45–58: the parse either throws (caught: `failureResult`),
yields `null` — on which `parsed.casual` would throw a `TypeError`,
also caught; unreachable here because a parsed brace-delimited slice is
always an object, but kept for faithfulness — or yields a value whose
fields are read one by one. -/
def afterParse : Option JsonValue → SuggestionResult
  | none => failureResult
  | some .null => failureResult
  | some parsed => fieldsResult parsed

/-- Lines 39–58: the JSON block is sliced out of the payload (throwing,
hence falling back, when the regex finds nothing) and handed to
`JSON.parse`. -/
def afterExtract : Option String → SuggestionResult
  | none => failureResult
  | some slice => afterParse (parseJson slice)

/-- Lines 36–58 from the payload on: a usable string payload flows into
extraction; a non-string payload throws at `text.match`. -/
def afterPayload : Option String → SuggestionResult
  | none => failureResult
  | some text => afterExtract (extractJson text)

/-- Lines 36–66 of `ai.js`: everything after the `axios.post` resolves
or rejects.  Every `throw` inside the `try` lands in the `catch` block
(line 59), whose value is the shared-fallback record. -/
def resolveOutcome (outcome : CallOutcome) : SuggestionResult :=
  match outcome with
  | .failure => failureResult
  | .success data => afterPayload (textPayload data)

/-- Shallow embedding of `makeSuggestions` (lines 3–67 of `ai.js`).  The
network is modelled by `respond`; the second component records the
requests issued during the run — the body posts exactly one request, so
the trace is the singleton of `geminiRequest userMessage`. -/
def makeSuggestions (userMessage : String)
    (respond : GeminiRequest → CallOutcome) :
    SuggestionResult × List GeminiRequest :=
  let req := geminiRequest userMessage
  (resolveOutcome (respond req), [req])

/-! ## Helper lemmas and concrete response data -/

/-- A well-formed response envelope whose single candidate carries `text`
as its first part's `text` property. -/
def mkEnvelope (text : JsonValue) : JsonValue :=
  .obj [("candidates",
    .arr [.obj [("content",
      .obj [("parts",
        .arr [.obj [("text", text)]])])]])]

theorem dropWhile_append_of_forall (p : Char → Bool) (pre l : List Char)
    (h : ∀ c ∈ pre, p c = true) :
    (pre ++ l).dropWhile p = l.dropWhile p := by
  induction pre with
  | nil => rfl
  | cons a as ih =>
    have ha := h a (List.mem_cons_self a as)
    rw [List.cons_append, List.dropWhile_cons, if_pos ha]
    exact ih fun c hc => h c (List.mem_cons_of_mem a hc)

theorem jsTruthy_str_ne (fb : String) (hfb : fb ≠ "") :
    jsTruthy (.str fb) = true := by
  simp [jsTruthy, hfb]

theorem jsTruthy_fieldOr (parsed : JsonValue) (key fb : String)
    (hfb : fb ≠ "") : jsTruthy (fieldOr parsed key fb) = true := by
  unfold fieldOr
  cases h : jsMember parsed key with
  | none => exact jsTruthy_str_ne fb hfb
  | some v =>
    show jsTruthy (if jsTruthy v = true then v else .str fb) = true
    cases hv : jsTruthy v with
    | false => simpa using jsTruthy_str_ne fb hfb
    | true => simpa using hv

theorem afterParse_shape (o : Option JsonValue) :
    afterParse o = failureResult ∨
      ∃ parsed, afterParse o = fieldsResult parsed := by
  cases o with
  | none => exact Or.inl rfl
  | some parsed =>
    cases parsed with
    | null => exact Or.inl rfl
    | bool b => exact Or.inr ⟨.bool b, rfl⟩
    | num q => exact Or.inr ⟨.num q, rfl⟩
    | str s => exact Or.inr ⟨.str s, rfl⟩
    | arr xs => exact Or.inr ⟨.arr xs, rfl⟩
    | obj kvs => exact Or.inr ⟨.obj kvs, rfl⟩

/-- `resolveOutcome` lands either in the `catch` result or in the
field-by-field success result. -/
theorem resolveOutcome_shape (o : CallOutcome) :
    resolveOutcome o = failureResult ∨
      ∃ parsed, resolveOutcome o = fieldsResult parsed := by
  cases o with
  | failure => exact Or.inl rfl
  | success data =>
    show afterPayload (textPayload data) = failureResult ∨
      ∃ parsed, afterPayload (textPayload data) = fieldsResult parsed
    cases textPayload data with
    | none => exact Or.inl rfl
    | some text =>
      show afterExtract (extractJson text) = failureResult ∨
        ∃ parsed, afterExtract (extractJson text) = fieldsResult parsed
      cases extractJson text with
      | none => exact Or.inl rfl
      | some slice => exact afterParse_shape (parseJson slice)

/-- A response whose parsed block binds `casual` to the number `1`, a
truthy non-string. -/
def nonStringFieldRespond : GeminiRequest → CallOutcome :=
  fun _ => .success (mkEnvelope
    (.str "\x7b\"casual\":1,\"polite\":\"a\",\"brief\":\"b\"\x7d"))

theorem fieldOr_none (parsed : JsonValue) (key fb : String)
    (h : jsMember parsed key = none) : fieldOr parsed key fb = .str fb := by
  unfold fieldOr
  rw [h]

theorem fieldOr_falsy (parsed : JsonValue) (key fb : String) (v : JsonValue)
    (h : jsMember parsed key = some v) (hv : jsTruthy v = false) :
    fieldOr parsed key fb = .str fb := by
  unfold fieldOr
  rw [h]
  show (if jsTruthy v = true then v else .str fb) = .str fb
  rw [hv]
  simp

theorem fieldOr_truthy (parsed : JsonValue) (key fb : String) (v : JsonValue)
    (h : jsMember parsed key = some v) (hv : jsTruthy v = true) :
    fieldOr parsed key fb = v := by
  unfold fieldOr
  rw [h]
  show (if jsTruthy v = true then v else .str fb) = v
  rw [hv]
  simp

/-! ## C1 -/

/-- **C1** — counterexample to the claim as stated.  The claim says every
field of the returned record is a non-empty *string* whatever the model
produced; but when the parsed block binds `casual` to the number `1`, a
truthy non-string, `parsed.casual || fallback` keeps it, so the `casual`
field of the result is not a string at all. -/
theorem c1_counterexample :
    ¬ ∃ s : String,
      (makeSuggestions "hi" nonStringFieldRespond).1.casual = JsonValue.str s := by
  rintro ⟨s, h⟩
  rw [show (makeSuggestions "hi" nonStringFieldRespond).1.casual
        = JsonValue.num 1 from rfl] at h
  exact JsonValue.noConfusion h

/-- **C1** (amended).  `makeSuggestions` is total (the embedding of the
`try`/`catch` body never raises) and always returns a record with exactly
the three fields `casual`, `polite`, `brief`, each holding a *truthy*
value: a non-empty fallback string, or the model's own truthy field value
— which is a non-empty string whenever it is a string at all, but may be
a truthy non-string passed through verbatim. -/
theorem makeSuggestions_result_truthy (msg : String)
    (respond : GeminiRequest → CallOutcome) :
    jsTruthy (makeSuggestions msg respond).1.casual = true ∧
    jsTruthy (makeSuggestions msg respond).1.polite = true ∧
    jsTruthy (makeSuggestions msg respond).1.brief = true := by
  have h1 : (makeSuggestions msg respond).1
      = resolveOutcome (respond (geminiRequest msg)) := rfl
  rw [h1]
  rcases resolveOutcome_shape (respond (geminiRequest msg)) with h | ⟨parsed, h⟩
  · rw [h]
    exact ⟨jsTruthy_str_ne _ (by decide), jsTruthy_str_ne _ (by decide),
      jsTruthy_str_ne _ (by decide)⟩
  · rw [h]
    exact ⟨jsTruthy_fieldOr _ _ _ (by decide), jsTruthy_fieldOr _ _ _ (by decide),
      jsTruthy_fieldOr _ _ _ (by decide)⟩

/-- Instantiation of `makeSuggestions_result_truthy` at a concrete run. -/
theorem c1_witness :
    jsTruthy (makeSuggestions "こんにちは" (fun _ => CallOutcome.failure)).1.casual
      = true :=
  (makeSuggestions_result_truthy "こんにちは" (fun _ => CallOutcome.failure)).1

/-! ## C2 -/

/-- **C2**.  A failed external call yields the shared whole-call fallback
sentence in all three fields, and that sentence differs from each of the
three per-field fallback sentences.  (For a *successful* call whose
envelope is malformed — no text payload — the code does not literally
skip extraction: it runs the regex on the empty string, which finds no
block; the observable result is the same whole-call fallback, see
`makeSuggestions_empty_payload`.) -/
theorem makeSuggestions_call_failure (msg : String)
    (respond : GeminiRequest → CallOutcome)
    (h : respond (geminiRequest msg) = CallOutcome.failure) :
    (makeSuggestions msg respond).1 =
      ⟨.str failureFallback, .str failureFallback, .str failureFallback⟩ ∧
    failureFallback ≠ casualFallback ∧
    failureFallback ≠ politeFallback ∧
    failureFallback ≠ briefFallback := by
  refine ⟨?_, by decide, by decide, by decide⟩
  show resolveOutcome (respond (geminiRequest msg)) = _
  rw [h]
  rfl

/-- Instantiation of `makeSuggestions_call_failure` at a concrete run. -/
theorem c2_witness :
    (makeSuggestions "件名" (fun _ => CallOutcome.failure)).1 =
      ⟨.str failureFallback, .str failureFallback, .str failureFallback⟩ :=
  (makeSuggestions_call_failure "件名" (fun _ => CallOutcome.failure) rfl).1

/-! ## C3 -/

/-- **C3**.  When the payload contains a brace-delimited block that parses
to an object binding all three keys to non-empty strings, the result's
fields are exactly those parsed strings: no mutation, no truncation, and
no length-band or emoji enforcement (the conclusion is plain equality with
the parsed values, whatever their length or content). -/
theorem makeSuggestions_valid_block (msg text slice : String)
    (respond : GeminiRequest → CallOutcome) (data parsed : JsonValue)
    (c p b : String)
    (hresp : respond (geminiRequest msg) = CallOutcome.success data)
    (hpay : textPayload data = some text)
    (hext : extractJson text = some slice)
    (hparse : parseJson slice = some parsed)
    (hc : jsMember parsed "casual" = some (.str c)) (hc0 : c ≠ "")
    (hp : jsMember parsed "polite" = some (.str p)) (hp0 : p ≠ "")
    (hb : jsMember parsed "brief" = some (.str b)) (hb0 : b ≠ "") :
    (makeSuggestions msg respond).1 = ⟨.str c, .str p, .str b⟩ := by
  show resolveOutcome (respond (geminiRequest msg)) = _
  rw [hresp]
  show afterPayload (textPayload data) = _
  rw [hpay]
  show afterExtract (extractJson text) = _
  rw [hext]
  show afterParse (parseJson slice) = _
  rw [hparse]
  cases parsed with
  | null => simp [jsMember] at hc
  | bool bb => simp [jsMember] at hc
  | num q => simp [jsMember] at hc
  | str s => simp [jsMember] at hc
  | arr xs => simp [jsMember] at hc
  | obj kvs =>
    show fieldsResult (.obj kvs) = _
    unfold fieldsResult
    rw [fieldOr_truthy _ _ _ _ hc (jsTruthy_str_ne c hc0),
      fieldOr_truthy _ _ _ _ hp (jsTruthy_str_ne p hp0),
      fieldOr_truthy _ _ _ _ hb (jsTruthy_str_ne b hb0)]

/-- The text, slice and parsed object of the concrete C3 run (the model
answer is wrapped in prose to exercise extraction as well). -/
def c3Slice : String :=
  "\x7b\"casual\":\"全然いけるよ〜何時がいい？\",\"polite\":\"承知いたしました。ご希望のお時間を教えていただけますでしょうか。\",\"brief\":\"調整可能です。希望時間を教えてください。\"\x7d"

def c3Text : String := "はい、こちらです。\n" ++ c3Slice

def c3Parsed : JsonValue :=
  .obj [("casual", .str "全然いけるよ〜何時がいい？"),
        ("polite", .str "承知いたしました。ご希望のお時間を教えていただけますでしょうか。"),
        ("brief", .str "調整可能です。希望時間を教えてください。")]

def c3Respond : GeminiRequest → CallOutcome :=
  fun _ => .success (mkEnvelope (.str c3Text))

/-- Instantiation of `makeSuggestions_valid_block` at the spec's example
scenario. -/
theorem c3_witness :
    (makeSuggestions "会議の時間変更できますか？" c3Respond).1 =
      ⟨.str "全然いけるよ〜何時がいい？",
       .str "承知いたしました。ご希望のお時間を教えていただけますでしょうか。",
       .str "調整可能です。希望時間を教えてください。"⟩ :=
  makeSuggestions_valid_block "会議の時間変更できますか？" c3Text c3Slice
    c3Respond (mkEnvelope (.str c3Text)) c3Parsed _ _ _
    rfl rfl rfl rfl rfl (by decide) rfl (by decide) rfl (by decide)

/-! ## C4 -/

/-- **C4** — counterexample to the claim as stated.  The claim says a
field supplied as a non-string is replaced by its per-field fallback; but
`parsed.casual || fallback` only replaces *falsy* values, so the truthy
non-string `1` is kept: the result's `casual` is the number `1`, neither
the per-field nor the shared fallback. -/
theorem c4_counterexample :
    (makeSuggestions "速報" nonStringFieldRespond).1.casual = JsonValue.num 1 ∧
    JsonValue.num 1 ≠ JsonValue.str casualFallback ∧
    JsonValue.num 1 ≠ JsonValue.str failureFallback :=
  ⟨rfl, fun h => JsonValue.noConfusion h, fun h => JsonValue.noConfusion h⟩

/-- **C4** (amended).  After a successful parse, each field is read
independently of the others (each conclusion depends only on that field's
own binding): a field that is missing or bound to a *falsy* value
(`null`, `false`, `0`, `""`) becomes its own style-specific per-field
fallback — not the shared whole-call fallback — and a field bound to any
*truthy* value (including a truthy non-string) keeps the model's value
verbatim. -/
theorem makeSuggestions_field_independent (msg text slice : String)
    (respond : GeminiRequest → CallOutcome) (data parsed : JsonValue)
    (hresp : respond (geminiRequest msg) = CallOutcome.success data)
    (hpay : textPayload data = some text)
    (hext : extractJson text = some slice)
    (hparse : parseJson slice = some parsed)
    (hnn : parsed ≠ JsonValue.null) :
    ((jsMember parsed "casual" = none →
        (makeSuggestions msg respond).1.casual = .str casualFallback) ∧
     (∀ v, jsMember parsed "casual" = some v → jsTruthy v = false →
        (makeSuggestions msg respond).1.casual = .str casualFallback) ∧
     (∀ v, jsMember parsed "casual" = some v → jsTruthy v = true →
        (makeSuggestions msg respond).1.casual = v)) ∧
    ((jsMember parsed "polite" = none →
        (makeSuggestions msg respond).1.polite = .str politeFallback) ∧
     (∀ v, jsMember parsed "polite" = some v → jsTruthy v = false →
        (makeSuggestions msg respond).1.polite = .str politeFallback) ∧
     (∀ v, jsMember parsed "polite" = some v → jsTruthy v = true →
        (makeSuggestions msg respond).1.polite = v)) ∧
    ((jsMember parsed "brief" = none →
        (makeSuggestions msg respond).1.brief = .str briefFallback) ∧
     (∀ v, jsMember parsed "brief" = some v → jsTruthy v = false →
        (makeSuggestions msg respond).1.brief = .str briefFallback) ∧
     (∀ v, jsMember parsed "brief" = some v → jsTruthy v = true →
        (makeSuggestions msg respond).1.brief = v)) := by
  have hres : (makeSuggestions msg respond).1 = fieldsResult parsed := by
    show resolveOutcome (respond (geminiRequest msg)) = _
    rw [hresp]
    show afterPayload (textPayload data) = _
    rw [hpay]
    show afterExtract (extractJson text) = _
    rw [hext]
    show afterParse (parseJson slice) = _
    rw [hparse]
    cases parsed with
    | null => exact absurd rfl hnn
    | bool bb => rfl
    | num q => rfl
    | str s => rfl
    | arr xs => rfl
    | obj kvs => rfl
  rw [hres]
  exact ⟨⟨fun h => fieldOr_none _ _ _ h,
          fun v h hv => fieldOr_falsy _ _ _ v h hv,
          fun v h hv => fieldOr_truthy _ _ _ v h hv⟩,
         ⟨fun h => fieldOr_none _ _ _ h,
          fun v h hv => fieldOr_falsy _ _ _ v h hv,
          fun v h hv => fieldOr_truthy _ _ _ v h hv⟩,
         ⟨fun h => fieldOr_none _ _ _ h,
          fun v h hv => fieldOr_falsy _ _ _ v h hv,
          fun v h hv => fieldOr_truthy _ _ _ v h hv⟩⟩

/-- The response of the concrete C4 run: `polite` absent, the other two
keys bound to non-empty strings. -/
def c4Slice : String := "\x7b\"casual\":\"全然いけるよ\",\"brief\":\"短くどうぞ\"\x7d"

def c4Parsed : JsonValue :=
  .obj [("casual", .str "全然いけるよ"), ("brief", .str "短くどうぞ")]

def c4Respond : GeminiRequest → CallOutcome :=
  fun _ => .success (mkEnvelope (.str c4Slice))

/-- Instantiation of `makeSuggestions_field_independent`: with `polite`
absent, `casual` and `brief` keep the model's values and `polite` is the
dedicated per-field fallback. -/
theorem c4_witness :
    (makeSuggestions "相談" c4Respond).1.casual = .str "全然いけるよ" ∧
    (makeSuggestions "相談" c4Respond).1.polite = .str politeFallback ∧
    (makeSuggestions "相談" c4Respond).1.brief = .str "短くどうぞ" := by
  have h := makeSuggestions_field_independent "相談" c4Slice c4Slice c4Respond
    (mkEnvelope (.str c4Slice)) c4Parsed rfl rfl rfl rfl
    (fun hh => JsonValue.noConfusion hh)
  exact ⟨h.1.2.2 _ rfl (by decide), h.2.1.1 rfl, h.2.2.2.2 _ rfl (by decide)⟩


/-! ## C5 -/

/-- The regex slice on a text made of a brace-free prefix, a first `\x7b`,
an arbitrary middle, a last `\x7d` and a suffix free of `\x7d` is exactly
the span from that first opening brace to that last closing brace. -/
theorem braceSlice_embedded (pre mid post : List Char)
    (hpre : '\x7b' ∉ pre) (hpost : '\x7d' ∉ post) :
    braceSlice (pre ++ '\x7b' :: (mid ++ '\x7d' :: post))
      = some ('\x7b' :: (mid ++ ['\x7d'])) := by
  unfold braceSlice
  rw [dropWhile_append_of_forall (fun c => decide (c ≠ '\x7b')) pre
    ('\x7b' :: (mid ++ '\x7d' :: post))
    (fun c hc => decide_eq_true (fun he : c = '\x7b' => hpre (he ▸ hc)))]
  rw [List.dropWhile_cons, if_neg (by decide)]
  show (if ((((mid ++ '\x7d' :: post).reverse).dropWhile
          (fun c => decide (c ≠ '\x7d'))).reverse).isEmpty
        then none
        else some ('\x7b' :: (((mid ++ '\x7d' :: post).reverse).dropWhile
          (fun c => decide (c ≠ '\x7d'))).reverse)) = some ('\x7b' :: (mid ++ ['\x7d']))
  have hrev : ((mid ++ '\x7d' :: post).reverse).dropWhile
      (fun c => decide (c ≠ '\x7d')) = '\x7d' :: mid.reverse := by
    rw [List.reverse_append, List.reverse_cons, List.append_assoc,
      dropWhile_append_of_forall (fun c => decide (c ≠ '\x7d')) post.reverse
        (['\x7d'] ++ mid.reverse)
        (fun c hc => decide_eq_true
          (fun he : c = '\x7d' => hpost (he ▸ (List.mem_reverse.mp hc)))),
      List.singleton_append, List.dropWhile_cons, if_neg (by decide)]
  rw [hrev, List.reverse_cons, List.reverse_reverse]
  have hne : (mid ++ ['\x7d']).isEmpty = false := by
    cases mid <;> rfl
  rw [hne]
  simp

/-- **C5**.  Extraction takes the slice of the model's text from the
first opening brace to the last closing brace — one greedy match — so a
block embedded in surrounding prose is still found; and when the text
has no brace-delimited span, the whole call falls back to the shared
failure sentence.  (What the resolver then does with the parsed slice is
the subject of C3, C4 and C6.) -/
theorem extractJson_greedy_slice :
    (∀ pre mid post : String, '\x7b' ∉ pre.data → '\x7d' ∉ post.data →
        extractJson (pre ++ "\x7b" ++ mid ++ "\x7d" ++ post) =
          some ("\x7b" ++ mid ++ "\x7d")) ∧
    (∀ (msg text : String) (respond : GeminiRequest → CallOutcome)
        (data : JsonValue),
        respond (geminiRequest msg) = CallOutcome.success data →
        textPayload data = some text → extractJson text = none →
        (makeSuggestions msg respond).1 =
          ⟨.str failureFallback, .str failureFallback, .str failureFallback⟩) := by
  constructor
  · intro pre mid post hpre hpost
    unfold extractJson
    have hdata : (pre ++ "\x7b" ++ mid ++ "\x7d" ++ post).data
        = pre.data ++ '\x7b' :: (mid.data ++ '\x7d' :: post.data) := by
      rw [String.data_append, String.data_append, String.data_append,
        String.data_append]
      have h1 : "\x7b".data = ['\x7b'] := rfl
      have h2 : "\x7d".data = ['\x7d'] := rfl
      rw [h1, h2]
      simp [List.append_assoc]
    rw [hdata, braceSlice_embedded pre.data mid.data post.data hpre hpost]
    show some (String.mk ('\x7b' :: (mid.data ++ ['\x7d']))) = _
    rfl
  · intro msg text respond data hresp hpay hext
    show resolveOutcome (respond (geminiRequest msg)) = _
    rw [hresp]
    show afterPayload (textPayload data) = _
    rw [hpay]
    show afterExtract (extractJson text) = _
    rw [hext]
    rfl

/-- Instantiation of `extractJson_greedy_slice`: a block embedded in
prose is extracted, and a block-free text makes the run fall back. -/
theorem c5_witness :
    extractJson ("Here you go:\n" ++ "\x7b" ++ "\"casual\":\"a\"" ++ "\x7d" ++ "\nThanks")
      = some ("\x7b" ++ "\"casual\":\"a\"" ++ "\x7d") ∧
    (makeSuggestions "連絡"
        (fun _ => CallOutcome.success (mkEnvelope (.str "no json here")))).1
      = ⟨.str failureFallback, .str failureFallback, .str failureFallback⟩ :=
  ⟨extractJson_greedy_slice.1 "Here you go:\n" "\"casual\":\"a\"" "\nThanks"
      (by decide) (by decide),
   extractJson_greedy_slice.2 "連絡" "no json here"
      (fun _ => CallOutcome.success (mkEnvelope (.str "no json here")))
      (mkEnvelope (.str "no json here")) rfl rfl rfl⟩

/-! ## C6 -/

/-- **C6**.  When a brace-delimited block is located but `JSON.parse`
rejects it, the whole call fails: all three fields of the result are the
shared whole-call failure sentence (no partial-parse recovery). -/
theorem makeSuggestions_parse_failure (msg text slice : String)
    (respond : GeminiRequest → CallOutcome) (data : JsonValue)
    (hresp : respond (geminiRequest msg) = CallOutcome.success data)
    (hpay : textPayload data = some text)
    (hext : extractJson text = some slice)
    (hparse : parseJson slice = none) :
    (makeSuggestions msg respond).1 =
      ⟨.str failureFallback, .str failureFallback, .str failureFallback⟩ := by
  show resolveOutcome (respond (geminiRequest msg)) = _
  rw [hresp]
  show afterPayload (textPayload data) = _
  rw [hpay]
  show afterExtract (extractJson text) = _
  rw [hext]
  show afterParse (parseJson slice) = _
  rw [hparse]
  rfl

/-- Instantiation of `makeSuggestions_parse_failure` on a text whose
brace block is not valid JSON. -/
theorem c6_witness :
    (makeSuggestions "壊れた"
        (fun _ => CallOutcome.success (mkEnvelope (.str "結果: \x7boops\x7d")))).1 =
      ⟨.str failureFallback, .str failureFallback, .str failureFallback⟩ :=
  makeSuggestions_parse_failure "壊れた" "結果: \x7boops\x7d" "\x7boops\x7d"
    (fun _ => CallOutcome.success (mkEnvelope (.str "結果: \x7boops\x7d")))
    (mkEnvelope (.str "結果: \x7boops\x7d")) rfl rfl rfl rfl

/-! ## C7 -/

/-- **C7**.  When the call succeeds but the envelope carries no text at
`candidates[0].content.parts[0].text` (the optional chain is
`undefined`), the payload defaults to `""`, extraction finds no block,
and the result is the whole-call fallback in all three fields. -/
theorem makeSuggestions_empty_payload (msg : String)
    (respond : GeminiRequest → CallOutcome) (data : JsonValue)
    (hresp : respond (geminiRequest msg) = CallOutcome.success data)
    (hraw : rawTextOf data = none) :
    (makeSuggestions msg respond).1 =
      ⟨.str failureFallback, .str failureFallback, .str failureFallback⟩ := by
  have hpay : textPayload data = some "" := by
    unfold textPayload
    rw [hraw]
  show resolveOutcome (respond (geminiRequest msg)) = _
  rw [hresp]
  show afterPayload (textPayload data) = _
  rw [hpay]
  rfl

/-- Instantiation of `makeSuggestions_empty_payload` on an envelope
without candidates. -/
theorem c7_witness :
    (makeSuggestions "空" (fun _ => CallOutcome.success (JsonValue.obj []))).1 =
      ⟨.str failureFallback, .str failureFallback, .str failureFallback⟩ :=
  makeSuggestions_empty_payload "空"
    (fun _ => CallOutcome.success (JsonValue.obj [])) (JsonValue.obj []) rfl rfl

/-! ## C8 -/

/-- The structured-output shape line of the prompt: an object with
exactly the keys `casual`, `polite` and `brief`. -/
def jsonShapeSpec : String :=
  "\x7b\"casual\":\"...\", \"polite\":\"...\", \"brief\":\"...\"\x7d"

/-- **C8**.  The prompt builder is a pure function of the message —
deterministic, equal inputs give the identical string — of the shape
`promptHead ++ message ++ promptTail`: the message sits verbatim between
the two triple-quote delimiters (`promptHead` ends with `\"\"\"` and
`promptTail` starts with it), and the tail mandates the JSON object shape
with exactly the three named keys. -/
theorem prompt_contract :
    (∀ m1 m2 : String, m1 = m2 → prompt m1 = prompt m2) ∧
    (∀ msg : String, prompt msg = promptHead ++ msg ++ promptTail) ∧
    "\"\"\"".data <:+ promptHead.data ∧
    "\"\"\"".data <+: promptTail.data ∧
    jsonShapeSpec.data <:+: promptTail.data ∧
    "casual".data <:+: jsonShapeSpec.data ∧
    "polite".data <:+: jsonShapeSpec.data ∧
    "brief".data <:+: jsonShapeSpec.data := by
  refine ⟨fun m1 m2 h => by rw [h], fun msg => rfl, by decide, by decide,
    by decide, by decide, by decide, by decide⟩

/-- Instantiation of `prompt_contract` at a concrete message. -/
theorem c8_witness :
    prompt "テスト" = promptHead ++ "テスト" ++ promptTail :=
  prompt_contract.2.1 "テスト"

/-! ## C9 -/

/-- **C9**.  One invocation issues exactly one request to the external
endpoint — the recorded request trace is the singleton of the built
request, whatever `respond` returns, so there is never a retry — and that
request carries the fixed sampling temperature `0.7`. -/
theorem makeSuggestions_single_call (msg : String)
    (respond : GeminiRequest → CallOutcome) :
    (makeSuggestions msg respond).2 = [geminiRequest msg] ∧
    (geminiRequest msg).generationConfig.temperature = 7 / 10 :=
  ⟨rfl, rfl⟩

/-! ## C10 -/

/-- **C10**.  Given the same behaviour of the external call on the one
request this message generates, two runs are exactly equal: everything
after the network call is a pure function of the message and the raw
response, with no shared or cross-request state. -/
theorem makeSuggestions_deterministic (msg : String)
    (respond1 respond2 : GeminiRequest → CallOutcome)
    (h : respond1 (geminiRequest msg) = respond2 (geminiRequest msg)) :
    makeSuggestions msg respond1 = makeSuggestions msg respond2 := by
  show (resolveOutcome (respond1 (geminiRequest msg)), [geminiRequest msg])
    = (resolveOutcome (respond2 (geminiRequest msg)), [geminiRequest msg])
  rw [h]

/-- Instantiation of `makeSuggestions_deterministic` at a concrete run. -/
theorem c10_witness :
    makeSuggestions "同じ入力" (fun _ => CallOutcome.failure)
      = makeSuggestions "同じ入力" (fun _ => CallOutcome.failure) :=
  makeSuggestions_deterministic "同じ入力" (fun _ => CallOutcome.failure)
    (fun _ => CallOutcome.failure) rfl
